import Mathlib

/-!
Verification development for the checkpointed SQL query-generation workflow
and its conversational memory subsystem.

The definitions below are a shallow embedding of the backend sources:

* `backend/app/services/memory_service.py` — `ConversationMemory`
  (`add_interaction`, `_extract_entities`, `_extract_question_patterns`,
  `resolve_contextual_references`, `get_relevant_context`);
* `backend/app/services/sql_agent.py` — `SQLAgent`
  (`validate_and_fix_query`, `classify_intent`, `basic_chat`, `write_query`,
  `execute_query`, `generate_answer`, `run_until_human_review`,
  `regenerate_query_with_feedback`, `finalize_after_approval`);
* `backend/app/api/routes.py` — the checkpoint codec
  (`pickle.dumps` / `bytes.hex` on the way out, `bytes.fromhex` /
  `pickle.loads` on the way back).

External capabilities (the LLM completion call, the SQL execution backend,
the wall clock, the schema description) are passed in as explicit oracle
parameters, matching the specification's treatment of them as opaque
collaborators.  Durable-storage persistence (`save_to_database`) writes the
in-memory record out unchanged and is modelled as the identity on the record.

Python string operations used by the source (`str.lower`, `str.upper`,
`str.strip`, `str.split`, `str.replace`, the `in` substring test, negative
slices) are embedded over `List Char`; the case maps are the ASCII maps,
which agree with Python on all inputs the source manipulates.
-/

/-- Whitespace test matching Python's `str.strip` / `str.split` / regex `\s`
on ASCII input: space, tab, newline, carriage return, vertical tab, form feed. -/
def pyIsSpace (c : Char) : Bool :=
  c == ' ' || c == '\t' || c == '\n' || c == '\r' || c == '\x0b' || c == '\x0c'

/-- ASCII lower-casing of one character, as Python's `str.lower` does on ASCII. -/
def pyLowerChar (c : Char) : Char :=
  if 65 ≤ c.toNat ∧ c.toNat ≤ 90 then Char.ofNat (c.toNat + 32) else c

/-- ASCII upper-casing of one character, as Python's `str.upper` does on ASCII. -/
def pyUpperChar (c : Char) : Char :=
  if 97 ≤ c.toNat ∧ c.toNat ≤ 122 then Char.ofNat (c.toNat - 32) else c

/-- Embedding of Python `s.lower()`. -/
def pyLower (s : String) : String := String.mk (s.data.map pyLowerChar)

/-- Embedding of Python `s.upper()`. -/
def pyUpper (s : String) : String := String.mk (s.data.map pyUpperChar)

/-- Embedding of Python `s.strip()` on a character list: drop whitespace from
both ends. -/
def pyStripL (l : List Char) : List Char :=
  List.rdropWhile pyIsSpace (l.dropWhile pyIsSpace)

/-- Embedding of Python `s.strip()`. -/
def pyStrip (s : String) : String := String.mk (pyStripL s.data)

/-- Decidable substring occurrence on character lists: `infixCheck n h` is
true when `n` occurs contiguously inside `h`.  Embeds Python's `n in h`. -/
def infixCheck (n : List Char) : List Char → Bool
  | [] => n.isEmpty
  | c :: t => n.isPrefixOf (c :: t) || infixCheck n t

/-- Embedding of the Python substring test `needle in hay`. -/
def pyContains (hay needle : String) : Bool := infixCheck needle.data hay.data

/-- Embedding of Python `s.replace(old, new)` on character lists for a
non-empty `old`: every non-overlapping occurrence is rewritten, scanning left
to right.  (The source only calls it with non-empty literals; an empty `old`
is treated as matching nothing.) -/
def replaceAllAux (old new : List Char) : Nat → List Char → List Char
  | _, [] => []
  | 0, l => l
  | f + 1, c :: rest =>
    if old ≠ [] ∧ old.isPrefixOf (c :: rest) then
      new ++ replaceAllAux old new f (rest.drop (old.length - 1))
    else
      c :: replaceAllAux old new f rest

/-- Embedding of Python `s.replace(old, new)` (the fuel, the input length,
always suffices: each step consumes at least one character). -/
def pyReplace (s old new : String) : String :=
  String.mk (replaceAllAux old.data new.data s.data.length s.data)

/-- Helper for `splitWs`: accumulates the current word (reversed) while
scanning. -/
def splitWsAux : List Char → List Char → List (List Char)
  | [], acc => if acc.isEmpty then [] else [acc.reverse]
  | c :: rest, acc =>
    if pyIsSpace c then
      if acc.isEmpty then splitWsAux rest [] else acc.reverse :: splitWsAux rest []
    else
      splitWsAux rest (c :: acc)

/-- Embedding of Python `s.split()` (no separator): split on whitespace runs,
discarding empty fragments. -/
def splitWs (l : List Char) : List (List Char) := splitWsAux l []

/-- First-occurrence deduplication (Python's seen-set loop keeps the first
copy, unlike `List.dedup` which keeps the last). -/
def dedupFirstAux [DecidableEq α] : List α → List α → List α
  | [], _ => []
  | a :: l, seen => if a ∈ seen then dedupFirstAux l seen else a :: dedupFirstAux l (a :: seen)

/-- First-occurrence deduplication of a list. -/
def dedupFirst [DecidableEq α] (l : List α) : List α := dedupFirstAux l []

/-- Embedding of `len(set(a.split()) & set(b.split()))`: the number of
distinct whitespace-tokenized words shared by the two strings. -/
def commonWordCount (a b : String) : Nat :=
  ((dedupFirst (splitWs a.data)).filter (fun w => decide (w ∈ splitWs b.data))).length

/-- Embedding of the Python slice `l[-m:]`.  Note Python's `l[-0:]` is the
whole list, hence the `m = 0` case. -/
def pyTailSlice (l : List α) (m : Nat) : List α :=
  if m = 0 then l else l.rtake m

/-- Strict lexicographic comparison of character lists by code point,
embedding Python's `<` on `str` (used via `max(..., key=...)` on ISO
timestamps). -/
def strLtB : List Char → List Char → Bool
  | [], [] => false
  | [], _ :: _ => true
  | _ :: _, [] => false
  | a :: as, b :: bs =>
    if a.toNat < b.toNat then true
    else if b.toNat < a.toNat then false
    else strLtB as bs

/-- Scalar Python literal appearing in a query-result list: a quoted string
or an integer. -/
inductive PyVal where
  | pstr (s : String)
  | pint (n : Int)
deriving DecidableEq, Repr

/-- Element of a parsed query-result list: either a tuple of scalars (the
shape produced by the database layer) or a bare scalar. -/
inductive PyItem where
  | ptup (vs : List PyVal)
  | pscalar (v : PyVal)
deriving DecidableEq, Repr

/-- Embedding of Python `str(item)` for the scalar literals the parser
produces. -/
def pyValStr : PyVal → String
  | .pstr s => s
  | .pint n => toString n

/-- Take characters up to (not including) the closing quote `q`; fails when
the quote never closes. -/
def takeUntilChar (q : Char) : List Char → Option (List Char × List Char)
  | [] => none
  | c :: t =>
    if c == q then some ([], t)
    else (takeUntilChar q t).map (fun p => (c :: p.1, p.2))

/-- Drop leading whitespace. -/
def skipWs (l : List Char) : List Char := l.dropWhile pyIsSpace

/-- Parse an integer literal (optional leading minus, then digits). -/
def parseIntLit (l : List Char) : Option (Int × List Char) :=
  match l with
  | '-' :: rest =>
    let ds := rest.takeWhile Char.isDigit
    if ds.isEmpty then none
    else some (-(ds.foldl (fun a c => a * 10 + (c.toNat - 48)) 0 : Nat), rest.dropWhile Char.isDigit)
  | _ =>
    let ds := l.takeWhile Char.isDigit
    if ds.isEmpty then none
    else some ((ds.foldl (fun a c => a * 10 + (c.toNat - 48)) 0 : Nat), l.dropWhile Char.isDigit)

/-- Parse one scalar literal: a single- or double-quoted string (no escape
sequences, as produced by `repr` on the row data the source handles) or an
integer. -/
def parseScalar (l : List Char) : Option (PyVal × List Char) :=
  match l with
  | '\x27' :: rest => (takeUntilChar '\x27' rest).map (fun p => (.pstr (String.mk p.1), p.2))
  | '"' :: rest => (takeUntilChar '"' rest).map (fun p => (.pstr (String.mk p.1), p.2))
  | _ => (parseIntLit l).map (fun p => (.pint p.1, p.2))

/-- Parse the comma-separated scalars of a tuple literal up to the closing
parenthesis (trailing commas allowed, as in `('a',)`). -/
def parseTupleVals : Nat → List Char → Option (List PyVal × List Char)
  | 0, _ => none
  | fuel + 1, l =>
    match skipWs l with
    | ')' :: r => some ([], r)
    | l' =>
      match parseScalar l' with
      | none => none
      | some (v, r) =>
        match skipWs r with
        | ',' :: r2 => (parseTupleVals fuel r2).map (fun p => (v :: p.1, p.2))
        | ')' :: r2 => some ([v], r2)
        | _ => none

/-- Parse one element of the outer list literal: a tuple or a bare scalar. -/
def parseItem (fuel : Nat) (l : List Char) : Option (PyItem × List Char) :=
  match l with
  | '(' :: r => (parseTupleVals fuel r).map (fun p => (.ptup p.1, p.2))
  | _ => (parseScalar l).map (fun p => (.pscalar p.1, p.2))

/-- Parse the comma-separated elements of the outer list literal up to the
closing bracket. -/
def parseListItems : Nat → List Char → Option (List PyItem × List Char)
  | 0, _ => none
  | fuel + 1, l =>
    match skipWs l with
    | ']' :: r => some ([], r)
    | l' =>
      match parseItem fuel l' with
      | none => none
      | some (v, r) =>
        match skipWs r with
        | ',' :: r2 => (parseListItems fuel r2).map (fun p => (v :: p.1, p.2))
        | ']' :: r2 => some ([v], r2)
        | _ => none

/-- Embedding of `ast.literal_eval` restricted to the shapes the source
consumes: a list literal whose elements are tuples of strings/integers or
bare scalars.  Inputs outside this fragment yield `none`, which the callers
treat exactly as the source treats a `literal_eval` failure (the silent
`except: pass`). -/
def parsePyLiteralList (s : String) : Option (List PyItem) :=
  match skipWs s.data with
  | '[' :: r =>
    match parseListItems (s.data.length + 2) r with
    | some (items, rest) => if (skipWs rest).isEmpty then some items else none
    | none => none
  | _ => none

/-- Embedding of Python `s.startswith(c)` for a single character. -/
def startsWithChar (s : String) (c : Char) : Bool :=
  match s.data with
  | [] => false
  | d :: _ => d == c

/-- Embedding of Python `s.endswith(c)` for a single character. -/
def endsWithChar (s : String) (c : Char) : Bool :=
  match s.data.getLast? with
  | none => false
  | some d => d == c

/-- One completed question/answer turn, as stored in
`ConversationMemory.conversation_history` (`memory_service.py`, lines
53–59). -/
structure Interaction where
  timestamp : String
  question : String
  query : String
  result : String
  answer : String
deriving DecidableEq, Repr

/-- Value stored in `ConversationMemory.entity_memory` under an entity key
(`memory_service.py`, lines 83–88). -/
structure EntityInfo where
  question : String
  full_result : String
  answer : String
  timestamp : String
deriving DecidableEq, Repr

/-- The per-user memory record (`ConversationMemory.__init__`): bounded
interaction history, pattern index and entity index.  Python dicts are
embedded as insertion-ordered association lists, matching dict iteration
order; assignment to an existing key replaces the value in place, assignment
to a fresh key appends. -/
structure Memory where
  username : String
  max_history : Nat
  conversation_history : List Interaction
  question_patterns : List (String × List (String × String))
  entity_memory : List (String × EntityInfo)
deriving DecidableEq, Repr

/-- Fresh memory record for a user, as `ConversationMemory(username)` builds
when durable storage has nothing for the user (default `max_history = 10`). -/
def emptyMemory (username : String) : Memory :=
  { username := username
    max_history := 10
    conversation_history := []
    question_patterns := []
    entity_memory := [] }

/-- Python dict assignment `d[k] = v` on an association list: replace in
place when the key exists, append otherwise. -/
def entityUpsert (l : List (String × EntityInfo)) (k : String) (v : EntityInfo) :
    List (String × EntityInfo) :=
  if l.any (fun p => p.1 == k) then
    l.map (fun p => if p.1 == k then (k, v) else p)
  else
    l ++ [(k, v)]

/-- Append `{question, query}` under `key` in the pattern index, creating the
key if absent (`question_patterns.get(key, [])` followed by `append`). -/
def patternAppend (l : List (String × List (String × String))) (k : String)
    (qq : String × String) : List (String × List (String × String)) :=
  if l.any (fun p => p.1 == k) then
    l.map (fun p => if p.1 == k then (p.1, p.2 ++ [qq]) else p)
  else
    l ++ [(k, [qq])]

/-- Body of the `for item in parsed_result` loop of `_extract_entities`: a
tuple with at least one component contributes an entity key, the lower-cased
string form of its first component; other items are skipped. -/
def entityStep (question result answer nowE : String)
    (em : List (String × EntityInfo)) (it : PyItem) : List (String × EntityInfo) :=
  match it with
  | .ptup (v :: _) =>
    entityUpsert em (pyLower (pyValStr v)) ⟨question, result, answer, nowE⟩
  | _ => em

/-- Embedding of `ConversationMemory._extract_entities` (`memory_service.py`,
lines 74–90): when the result text parses as a non-empty literal list, every
tuple element with at least one component contributes an entity key, the
lower-cased string form of its first component. -/
def extract_entities (em : List (String × EntityInfo))
    (question result answer nowE : String) : List (String × EntityInfo) :=
  if startsWithChar result '[' && endsWithChar result ']' then
    match parsePyLiteralList result with
    | some items =>
      if items.isEmpty then em
      else items.foldl (entityStep question result answer nowE) em
    | none => em
  else em

/-- Embedding of `ConversationMemory._extract_question_patterns`
(`memory_service.py`, lines 92–105). -/
def extract_question_patterns (qp : List (String × List (String × String)))
    (question query : String) : List (String × List (String × String)) :=
  let question_lower := pyLower question
  let qp :=
    if pyContains question_lower "student" then
      patternAppend qp "student_queries" (question, query)
    else qp
  ["name", "marks", "class", "section", "grade", "email", "id"].foldl
    (fun qp col =>
      if pyContains question_lower col then
        patternAppend qp (col ++ "_queries") (question, query)
      else qp)
    qp

/-- Embedding of `ConversationMemory.add_interaction` (`memory_service.py`,
lines 51–72): append the new interaction, truncate to the most recent
`max_history` entries when the bound is exceeded, update both derived
indices.  `nowI` and `nowE` are the two `datetime.now()` readings (one for
the interaction, one for the entity index); the final `save_to_database`
persists the record unchanged. -/
def add_interaction (mem : Memory) (question query result answer nowI nowE : String) :
    Memory :=
  let interaction : Interaction :=
    { timestamp := nowI, question := question, query := query
      result := result, answer := answer }
  let h := mem.conversation_history ++ [interaction]
  let h := if mem.max_history < h.length then pyTailSlice h mem.max_history else h
  { mem with
    conversation_history := h
    question_patterns := extract_question_patterns mem.question_patterns question query
    entity_memory := extract_entities mem.entity_memory question result answer nowE }

/-- First tuple element's string form among the parsed items — the `for item
in parsed_result: ... break` loop of `resolve_contextual_references`. -/
def firstTupleName (items : List PyItem) : Option String :=
  items.findSome? (fun it =>
    match it with
    | .ptup (v :: _) => some (pyValStr v)
    | _ => none)

/-- Python `max(entity_memory.items(), key=lambda x: x[1]['timestamp'])`:
the first item with maximal timestamp under string comparison. -/
def maxByTimestamp (hd : String × EntityInfo) (tl : List (String × EntityInfo)) :
    String × EntityInfo :=
  tl.foldl
    (fun best p =>
      if strLtB best.2.timestamp.data p.2.timestamp.data then p else best)
    hd

/-- Embedding of `ConversationMemory.resolve_contextual_references`
(`memory_service.py`, lines 107–141): for each pronoun occurring in the
lower-cased question, substitute it (by literal replacement) with the string
form of the first component of the first tuple of the most recent
interaction's parsed result; then apply the what/marks rewrite against the
entity index. -/
def resolve_contextual_references (mem : Memory) (question : String) : String :=
  let question_lower := pyLower question
  let resolved :=
    ["her", "his", "their", "it", "she", "he", "they"].foldl
      (fun resolved pronoun =>
        if pyContains question_lower pronoun then
          match mem.conversation_history.getLast? with
          | some last =>
            if startsWithChar last.result '[' && endsWithChar last.result ']' then
              match parsePyLiteralList last.result with
              | some items =>
                if items.isEmpty then resolved
                else
                  match firstTupleName items with
                  | some name => pyReplace resolved pronoun name
                  | none => resolved
              | none => resolved
            else resolved
          | none => resolved
        else resolved)
      question
  if pyContains question_lower "what" &&
      (pyContains question_lower "marks" || pyContains question_lower "grade") then
    match mem.entity_memory with
    | [] => resolved
    | e :: es =>
      let recent := maxByTimestamp e (e :: es).tail
      if !((e :: es).any (fun p => pyContains question_lower p.1)) then
        "what are " ++ recent.1 ++ "\x27s marks"
      else resolved
  else resolved

/-- Identity used by the seen-set deduplication in `get_relevant_context`:
`f"{question}_{timestamp}"`. -/
def interactionId (i : Interaction) : String := i.question ++ "_" ++ i.timestamp

/-- Seen-set loop of `get_relevant_context`: keep the first occurrence of
each `(question, timestamp)` identity. -/
def dedupByIdAux : List Interaction → List String → List Interaction
  | [], _ => []
  | i :: rest, seen =>
    if interactionId i ∈ seen then dedupByIdAux rest seen
    else i :: dedupByIdAux rest (interactionId i :: seen)

/-- Candidate interactions of `get_relevant_context` (`memory_service.py`,
lines 151–167): the last two interactions, followed by every interaction
whose question shares at least two distinct lower-cased words with the
current question, deduplicated keeping first occurrences. -/
def relevantCandidates (mem : Memory) (current_question : String) : List Interaction :=
  let current_question_lower := pyLower current_question
  let recent_interactions := mem.conversation_history.rtake 2
  let relevant_interactions :=
    mem.conversation_history.filter
      (fun i => decide (2 ≤ commonWordCount current_question_lower (pyLower i.question)))
  dedupByIdAux (recent_interactions ++ relevant_interactions) []

/-- Python `str(list_of_strings)`: the bracketed, comma-separated single-quoted
reprs (the shape taken by the entity keys the source prints). -/
def pyStrListRepr (ks : List String) : String :=
  "[" ++ String.intercalate ", " (ks.map (fun k => "\x27" ++ k ++ "\x27")) ++ "]"

/-- Narrative lines contributed by one shown interaction (`get_relevant_context`,
lines 173–177), with its 1-based position. -/
def interactionLines (idx : Nat) (i : Interaction) : List String :=
  [ "\n" ++ toString idx ++ ". Previous Question: " ++ i.question
  , "   SQL Query: " ++ i.query
  , "   Result: " ++ i.result
  , "   Answer Given: " ++ i.answer ]

/-- The interactions actually formatted into the narrative: the slice
`unique_relevant[-3:]` of `get_relevant_context` (`memory_service.py`,
line 173). -/
def shownInteractions (mem : Memory) (current_question : String) : List Interaction :=
  pyTailSlice (relevantCandidates mem current_question) 3

/-- Embedding of `ConversationMemory.get_relevant_context`
(`memory_service.py`, lines 143–184): empty history yields the empty string;
otherwise the narrative is built from the last three deduplicated candidates
plus the entity keys, joined with newlines. -/
def get_relevant_context (mem : Memory) (current_question : String) : String :=
  if mem.conversation_history.isEmpty then ""
  else
    let unique_relevant := relevantCandidates mem current_question
    if unique_relevant.isEmpty then ""
    else
      let shown := shownInteractions mem current_question
      let header :=
        "CONVERSATION CONTEXT (use this to resolve references like \x27her\x27, \x27his\x27, \x27it\x27, etc.):"
      let body := (shown.enum.map (fun p => interactionLines (p.1 + 1) p.2)).flatten
      let entPart :=
        if mem.entity_memory.isEmpty then []
        else ["\nKNOWN ENTITIES: " ++ pyStrListRepr (mem.entity_memory.map (·.1))]
      String.intercalate "\n" (header :: body ++ entPart)

/-- Embedding of `ConversationMemory.clear_memory` (`memory_service.py`,
lines 196–201): all three collections reset (and the cleared record
persisted). -/
def clear_memory (mem : Memory) : Memory :=
  { mem with conversation_history := [], question_patterns := [], entity_memory := [] }

/-- Tail of `validate_and_fix_query`: embedding of
`re.sub(r'\s+LIMIT\s+\d+\s*$', '', query, flags=re.IGNORECASE)` on the
already-stripped query.  Working from the end: optional whitespace, at least
one digit, at least one whitespace, the word LIMIT case-insensitively, and at
least one preceding whitespace (the whole trailing run is removed, matching
the leftmost match of the greedy `\s+`); when any part is missing the query
is unchanged. -/
def stripTrailingLimit (s : List Char) : List Char :=
  let r := s.reverse
  let r1 := r.dropWhile pyIsSpace
  if (r1.takeWhile Char.isDigit).isEmpty then s
  else
    let r2 := r1.dropWhile Char.isDigit
    if (r2.takeWhile pyIsSpace).isEmpty then s
    else
      match r2.dropWhile pyIsSpace with
      | t :: i :: m :: i2 :: l :: rest =>
        if pyLowerChar t == 't' && pyLowerChar i == 'i' && pyLowerChar m == 'm' &&
            pyLowerChar i2 == 'i' && pyLowerChar l == 'l' then
          if (rest.takeWhile pyIsSpace).isEmpty then s
          else (rest.dropWhile pyIsSpace).reverse
        else s
      | _ => s

/-- Embedding of `query.upper().startswith(('UPDATE', 'INSERT', 'DELETE'))`. -/
def startsMut (q : String) : Bool :=
  ["UPDATE", "INSERT", "DELETE"].any (fun p => p.data.isPrefixOf (pyUpper q).data)

/-- Embedding of `SQLAgent.validate_and_fix_query` (`sql_agent.py`, lines
158–168): strip surrounding whitespace; when the query starts with a mutating
keyword, drop a trailing LIMIT clause; finally replace every newline with a
space. -/
def validate_and_fix_query (query : String) : String :=
  let query := pyStrip query
  let query :=
    if startsMut query then String.mk (stripTrailingLimit query.data) else query
  pyReplace query "\n" " "

/-- Input handed to the opaque LLM completion capability: `llm.invoke` is
called either on a bare prompt string or on a list of (role, content)
messages. -/
inductive LLMInput where
  | text (prompt : String)
  | messages (msgs : List (String × String))

/-- The workflow `State` dict of `sql_agent.py` (lines 16–27).  The
`NotRequired` keys `feedback` and `intent` are modelled as always-present
strings, empty standing for an absent key (every read in the source goes
through `state.get(..., "")` or is preceded by an assignment). -/
structure AgentState where
  username : String
  question : String
  query : String
  error : String
  success : Bool
  result : String
  answer : String
  context_from_memory : String
  resolved_question : String
  feedback : String
  intent : String
deriving DecidableEq, Repr

/-- The `classification_prompt` template of `SQLAgent.classify_intent`
(`sql_agent.py`, lines 186–212) with its three placeholders substituted. -/
def classificationPrompt (memory_context question resolved_question : String) : String :=
  "\nYou are an intent classifier. Determine if the user\x27s question requires database/SQL operations or is a general chat question.\n\nContext from previous conversations:\n"
  ++ memory_context ++
  "\n\nClassify the following question as either \x27sql\x27 or \x27chat\x27:\n\nSQL-related questions include:\n- Questions about data, records, statistics\n- Requests to find, show, list, count items\n- Questions about customers, products, orders, sales, etc.\n- Analytical questions requiring database queries\n- Questions that reference previous SQL results or data\n\nChat questions include:\n- General conversation\n- Questions about the system capabilities\n- Greetings and pleasantries\n- Help requests not related to data\n- Questions about how to use the system\n\nQuestion: "
  ++ question ++ "\nResolved Question: " ++ resolved_question ++
  "\n\nRespond with ONLY \x27sql\x27 or \x27chat\x27 (no explanations):\n"

/-- Embedding of `SQLAgent.classify_intent` (`sql_agent.py`, lines 181–239):
one LLM round trip; the trimmed, lower-cased reply is kept only when it is
exactly `sql` or `chat`, anything else defaults to `chat`. -/
def classify_intent (llm : LLMInput → String) (state : AgentState) : AgentState :=
  let prompt :=
    classificationPrompt state.context_from_memory state.question state.resolved_question
  let intent := pyLower (pyStrip (llm (.messages [("system", prompt)])))
  let intent := if intent == "sql" || intent == "chat" then intent else "chat"
  { state with intent := intent }

/-- The `chat_prompt` f-string of `SQLAgent.basic_chat` (`sql_agent.py`,
lines 246–262). -/
def chatPrompt (memory_context question resolved_question : String) : String :=
  "\nYou are a helpful AI assistant for a database query system. The user has asked a general question that doesn\x27t require database access.\n\nContext from previous conversations:\n"
  ++ memory_context ++
  "\n\nOriginal Question: " ++ question ++ "\nResolved Question: " ++ resolved_question ++
  "\n\nProvide a helpful, friendly response. If the user is asking about the system\x27s capabilities, explain that you can:\n1. Answer questions about data in the database (customers, products, orders, sales, etc.)\n2. Generate and execute SQL queries based on natural language questions\n3. Remember context from previous conversations\n4. Have general conversations like this one\n\nPlease respond naturally and helpfully to their question.\n"

/-- Embedding of `SQLAgent.basic_chat` (`sql_agent.py`, lines 241–288): one
LLM round trip, then the interaction is stored in the user's memory with
empty query and result.  `nowI`/`nowE` are the `datetime.now()` readings of
that `add_interaction` call. -/
def basic_chat (llm : LLMInput → String) (mem : Memory) (state : AgentState)
    (nowI nowE : String) : AgentState × Memory :=
  let prompt := chatPrompt state.context_from_memory state.question state.resolved_question
  let answer := pyStrip (llm (.text prompt))
  let mem := add_interaction mem state.question "" "" answer nowI nowE
  ({ state with answer := answer, query := "", result := "" }, mem)

/-- The `system_message` template of `SQLAgent.write_query` (`sql_agent.py`,
lines 299–341) with its placeholders substituted (`top_k` is always the
literal 10). -/
def writeQueryPromptSystem (dialect table_info memory_context resolved_question input : String) :
    String :=
  "\nYou are an expert SQL query generator with memory of previous interactions. Your task is to generate a syntactically correct "
  ++ dialect ++
  " SQL query from the user\x27s natural language question.\n\n"
  ++ memory_context ++
  "\n\nCRITICAL RULES FOR MEMORY AND CONTEXT:\n1. ALWAYS pay close attention to the conversation context above.\n2. If the question contains pronouns (her, his, their, it, she, he, they), use the context to identify what they refer to.\n3. If the question refers to a person or entity mentioned in previous interactions, use that information.\n4. The resolved question should guide your SQL generation: "
  ++ resolved_question ++
  "\n\nCRITICAL SQL RULES:\n1. Use ONLY the exact table names and column names provided in the schema below.\n2. Column names are case-sensitive — use exact capitalization as shown.\n3. Never assume or invent column names — only use those explicitly listed.\n4. Do NOT use SELECT * — always specify only the relevant columns.\n5. Unless the question explicitly requests more, limit the result to 10 rows.\n6. For date/time filtering or extraction, use correct functions per dialect:\n   - SQLite: strftime(\x27%Y\x27, column), strftime(\x27%m\x27, column)\n   - MySQL: YEAR(column), MONTH(column), DAY(column)\n   - PostgreSQL: EXTRACT(YEAR FROM column), EXTRACT(MONTH FROM column)\n7. For text matching, use LIKE with `%` wildcards (e.g., WHERE name LIKE \x27%john%\x27).\n8. When searching by name, always use the column named \x27name\x27 (not \x27username\x27, etc.).\n9. Do not use aliases, subqueries, or joins unless necessary to answer the question.\n10. Only include valid SQL syntax for the specified dialect.\n11. Use lowercase for text values in WHERE clauses since all text data is stored in lowercase.\n12. When searching by id, check the column name for \x27user_id\x27, \x27student_id\x27, etc., and use it exactly as shown in the schema.\n\nIMPORTANT:\n- ALWAYS consider the conversation context when interpreting the question.\n- If a pronoun or reference is unclear, look at the previous interactions to resolve it.\n- The resolved question \""
  ++ resolved_question ++
  "\" should be your primary guide.\n\nDATABASE SCHEMA:\n"
  ++ table_info ++
  "\n\nConvert the following user question into a valid SQL query, considering the conversation context and resolved question.\n\nOnly output the SQL query — no explanations, no markdown formatting.\n\nORIGINAL QUESTION: "
  ++ input ++ "\nRESOLVED QUESTION: " ++ resolved_question ++ "\n"

/-- The `user_prompt` template of `SQLAgent.write_query` (`sql_agent.py`,
line 343). -/
def writeQueryPromptHuman (input feedback : String) : String :=
  "Question: " ++ input ++
  " \n\n Use this feedback to improve the query: " ++ feedback ++
  " -> It is very important to keep in mind if feedback is present"

/-- Characters preceding the first closing code fence, or `none` when the
text never closes the fence. -/
def takeUntilFence : List Char → Option (List Char)
  | [] => none
  | c :: t =>
    if "```".data.isPrefixOf (c :: t) then some []
    else (takeUntilFence t).map (c :: ·)

/-- Embedding of `re.search(r"```sql\s+(.*?)```", text, re.DOTALL)` on the
character list: the first position opening a `sql` code fence followed by at
least one whitespace character yields the (whitespace-trimmed-on-the-left)
content up to the next closing fence. -/
def extractFencedSqlL : List Char → Option (List Char)
  | [] => none
  | c :: t =>
    if "```sql".data.isPrefixOf (c :: t) then
      let after := (c :: t).drop 6
      if (after.takeWhile pyIsSpace).isEmpty then extractFencedSqlL t
      else
        match takeUntilFence (after.dropWhile pyIsSpace) with
        | some g => some g
        | none => extractFencedSqlL t
    else extractFencedSqlL t

/-- Fenced-block extraction of `write_query` as a `String` operation. -/
def extractFencedSql (s : String) : Option String :=
  (extractFencedSqlL s.data).map String.mk

/-- Embedding of `SQLAgent.write_query` (`sql_agent.py`, lines 290–382): one
LLM round trip over the two-message prompt, fenced-block extraction, then
`validate_and_fix_query`.  `dialect` and `table_info` come from the opaque
database capability (`self.db.dialect`, `get_table_info_str`). -/
def write_query (llm : LLMInput → String) (dialect table_info : String)
    (state : AgentState) : AgentState :=
  let sysMsg :=
    writeQueryPromptSystem dialect table_info state.context_from_memory
      state.resolved_question state.question
  let humanMsg := writeQueryPromptHuman state.question state.feedback
  let response_text := pyStrip (llm (.messages [("system", sysMsg), ("human", humanMsg)]))
  let sql_query :=
    match extractFencedSql response_text with
    | some g => pyStrip g
    | none => pyStrip response_text
  { state with query := validate_and_fix_query sql_query }

/-- Embedding of `SQLAgent.execute_query` (`sql_agent.py`, lines 384–395):
the database capability either returns the result text or fails with a
message; a failure is captured, not raised, as the state's result text
prefixed with the error marker. -/
def execute_query (dbRun : String → Except String String) (state : AgentState) :
    AgentState :=
  match dbRun state.query with
  | .ok r => { state with result := r }
  | .error e => { state with result := "Error executing query: " ++ e }

/-- The answer prompt of `SQLAgent.generate_answer` (`sql_agent.py`, lines
403–418), including the conditional conversation-context block. -/
def answerPrompt (question resolved_question query result feedback memory_context : String) :
    String :=
  let p :=
    "You are a helpful assistant that answers questions based on database query results and conversation history. Use the SQL result to provide a direct, natural language answer to the user\x27s question. Consider the conversation history when relevant, and acknowledge when you\x27re building on previous information. Do not suggest query modifications or provide technical explanations unless asked.\n\nOriginal Question: "
    ++ question ++ "\nResolved Question: " ++ resolved_question ++
    "\nSQL Query Used: " ++ query ++ "\nSQL Result: " ++ result ++
    "\n\nFeedback: " ++ feedback ++ "\n\n"
  let p :=
    if memory_context ≠ "" then p ++ "Conversation Context:\n" ++ memory_context ++ "\n\n"
    else p
  p ++ "Please provide a clear, direct answer to the user\x27s question using the information from the SQL result."

/-- Embedding of `SQLAgent.generate_answer` (`sql_agent.py`, lines 397–443):
one LLM round trip, then the completed interaction is stored in the user's
memory. -/
def generate_answer (llm : LLMInput → String) (mem : Memory) (state : AgentState)
    (nowI nowE : String) : AgentState × Memory :=
  let prompt :=
    answerPrompt state.question state.resolved_question state.query state.result
      state.feedback state.context_from_memory
  let answer := pyStrip (llm (.text prompt))
  let mem := add_interaction mem state.question state.query state.result answer nowI nowE
  ({ state with answer := answer }, mem)

/-- Embedding of `SQLAgent.run_until_human_review` (`sql_agent.py`, lines
477–539) together with the graph built in `build_graph`: memory-context
injection, intent classification, then either the chat path (which completes
and stores the interaction — once inside `basic_chat` and once more in the
wrapper's own `add_interaction` call) or the SQL path, which runs
`write_query` and pauses before execution.  `mem` is the calling user's
memory record; `t1`–`t4` are the successive `datetime.now()` readings of the
two recording calls on the chat path. -/
def run_until_human_review (llm : LLMInput → String) (dialect table_info : String)
    (mem : Memory) (username question : String) (t1 t2 t3 t4 : String) :
    AgentState × Memory :=
  let initial : AgentState :=
    { username := username, question := question, query := "", error := ""
      success := true, result := "", answer := "", context_from_memory := ""
      resolved_question := "", feedback := "", intent := "" }
  let resolved := resolve_contextual_references mem question
  let context := get_relevant_context mem question
  let s1 := { initial with context_from_memory := context, resolved_question := resolved }
  let s2 := classify_intent llm s1
  if s2.intent == "sql" then
    (write_query llm dialect table_info s2, mem)
  else
    let (s3, mem1) := basic_chat llm mem s2 t1 t2
    let mem2 := add_interaction mem1 s3.question "" "" s3.answer t3 t4
    (s3, mem2)

/-- Embedding of `SQLAgent.regenerate_query_with_feedback` (`sql_agent.py`,
lines 541–560): non-empty feedback is appended to the stripped question in
parenthesized form, a fresh state is built keeping the username and the
memory context (the resolver is not re-run; `resolved_question` is reset to
empty), and only `write_query` is executed.  No memory record is touched. -/
def regenerate_query_with_feedback (llm : LLMInput → String) (dialect table_info : String)
    (state : AgentState) (feedback : String) : AgentState :=
  let current_state := state
  let updated_question :=
    if feedback ≠ "" then
      pyStrip current_state.question ++ " (" ++ pyStrip feedback ++ ")"
    else current_state.question
  let updated : AgentState :=
    { username := current_state.username
      question := updated_question
      query := ""
      error := ""
      success := true
      result := ""
      answer := ""
      context_from_memory := current_state.context_from_memory
      resolved_question := ""
      feedback := feedback
      intent := "" }
  write_query llm dialect table_info updated

/-- Embedding of `SQLAgent.finalize_after_approval` (`sql_agent.py`, lines
588–607): execute the approved query, synthesize the answer (which itself
stores the interaction inside `generate_answer`), then store the completed
interaction once more in the wrapper.  `t1`–`t4` are the successive
`datetime.now()` readings of the two recording calls. -/
def finalize_after_approval (llm : LLMInput → String)
    (dbRun : String → Except String String) (mem : Memory) (query_state : AgentState)
    (t1 t2 t3 t4 : String) : AgentState × Memory :=
  let executed_state := execute_query dbRun query_state
  let (final_state, mem1) :=
    generate_answer llm mem { executed_state with feedback := query_state.feedback } t1 t2
  let mem2 :=
    add_interaction mem1 query_state.question query_state.query final_state.result
      final_state.answer t3 t4
  (final_state, mem2)

/-- Byte encoding of a natural number: base-10 digits (little-endian)
terminated by the sentinel byte 255. -/
def encNat (n : Nat) : List Nat := Nat.digits 10 n ++ [255]

/-- Decoder matching `encNat`. -/
def decNat (bs : List Nat) : Option (Nat × List Nat) :=
  match bs.dropWhile (fun b => b != 255) with
  | 255 :: r => some (Nat.ofDigits 10 (bs.takeWhile (fun b => b != 255)), r)
  | _ => none

/-- Byte encoding of a string: length, then each character's code point. -/
def encStr (s : String) : List Nat :=
  encNat s.data.length ++ (s.data.map (fun c => encNat c.toNat)).flatten

/-- Decode `k` characters. -/
def decChars : Nat → List Nat → Option (List Char × List Nat)
  | 0, bs => some ([], bs)
  | k + 1, bs => do
    let (n, r) ← decNat bs
    let (cs, r2) ← decChars k r
    pure (Char.ofNat n :: cs, r2)

/-- Decoder matching `encStr`. -/
def decStr (bs : List Nat) : Option (String × List Nat) := do
  let (len, r) ← decNat bs
  let (cs, r2) ← decChars len r
  pure (String.mk cs, r2)

/-- Byte encoding of a boolean. -/
def encBool (b : Bool) : List Nat := [if b then 1 else 0]

/-- Decoder matching `encBool`. -/
def decBool : List Nat → Option (Bool × List Nat)
  | 0 :: r => some (false, r)
  | 1 :: r => some (true, r)
  | _ => none

/-- Serialization of the paused workflow state to a byte sequence, standing
for `pickle.dumps(result)` in `routes.py` (line 90).  Pickle's contract on
this fixed-shape dict of strings and a bool is exactly that `pickle.loads`
is a left inverse; the model realizes that contract with an explicit
length-prefixed field-by-field encoding in declaration order. -/
def serializeState (s : AgentState) : List Nat :=
  encStr s.username ++ encStr s.question ++ encStr s.query ++ encStr s.error ++
  encBool s.success ++ encStr s.result ++ encStr s.answer ++
  encStr s.context_from_memory ++ encStr s.resolved_question ++
  encStr s.feedback ++ encStr s.intent

/-- Deserialization of a byte sequence back to a workflow state, standing for
`pickle.loads(state_bytes)` in `routes.py` (line 114); malformed input yields
`none` (the source's decode failure path). -/
def deserializeState (bs : List Nat) : Option AgentState := do
  let (username, r1) ← decStr bs
  let (question, r2) ← decStr r1
  let (query, r3) ← decStr r2
  let (error, r4) ← decStr r3
  let (success, r5) ← decBool r4
  let (result, r6) ← decStr r5
  let (answer, r7) ← decStr r6
  let (context_from_memory, r8) ← decStr r7
  let (resolved_question, r9) ← decStr r8
  let (feedback, r10) ← decStr r9
  let (intent, _) ← decStr r10
  pure
    { username := username, question := question, query := query, error := error
      success := success, result := result, answer := answer
      context_from_memory := context_from_memory
      resolved_question := resolved_question, feedback := feedback, intent := intent }

/-- Hexadecimal digit character for a value below 16 (lowercase, as
`bytes.hex` emits), computed from the code point. -/
def hexChar (d : Nat) : Char :=
  if d < 10 then Char.ofNat (48 + d)
  else if d < 16 then Char.ofNat (87 + d)
  else '0'

/-- Value of one hexadecimal digit character, upper or lower case
(`bytes.fromhex` accepts both); `none` on a non-hex character. -/
def hexVal? (c : Char) : Option Nat :=
  if 48 ≤ c.toNat ∧ c.toNat ≤ 57 then some (c.toNat - 48)
  else if 97 ≤ c.toNat ∧ c.toNat ≤ 102 then some (c.toNat - 87)
  else if 65 ≤ c.toNat ∧ c.toNat ≤ 70 then some (c.toNat - 55)
  else none

/-- Embedding of `bytes.hex()` (`routes.py`, line 91): two lowercase hex
digits per byte. -/
def bytesToHex (bs : List Nat) : String :=
  String.mk ((bs.map (fun b => [hexChar (b / 16), hexChar (b % 16)])).flatten)

/-- Pair-wise hex decoding of a character list. -/
def hexPairsToBytes : List Char → Option (List Nat)
  | [] => some []
  | c1 :: c2 :: rest => do
    let h ← hexVal? c1
    let l ← hexVal? c2
    let bs ← hexPairsToBytes rest
    pure ((16 * h + l) :: bs)
  | _ => none

/-- Embedding of `bytes.fromhex(...)` (`routes.py`, line 113) on the tokens
this system produces (no embedded spaces); an odd length or a non-hex
character fails, as the source's decode failure path. -/
def hexToBytes (s : String) : Option (List Nat) := hexPairsToBytes s.data

/-- The checkpoint encoder of `process_query` / `regenerate` (`routes.py`,
lines 90–91 and 157–158): serialize the paused state and hex-encode it. -/
def encodeCheckpoint (s : AgentState) : String := bytesToHex (serializeState s)

/-- The checkpoint decoder of `approve_and_execute_query` / `regenerate`
(`routes.py`, lines 113–114 and 139–140): hex-decode then deserialize. -/
def decodeCheckpoint (t : String) : Option AgentState :=
  (hexToBytes t).bind deserializeState

theorem replaceAllAux_single (x y : Char) :
    ∀ (f : Nat) (l : List Char), l.length ≤ f →
      replaceAllAux [x] [y] f l = l.map (fun c => if c == x then y else c) := by
  intro f
  induction f with
  | zero =>
    intro l hl
    cases l with
    | nil => rfl
    | cons c t => simp at hl
  | succ f ih =>
    intro l hl
    cases l with
    | nil => rfl
    | cons c t =>
      simp only [replaceAllAux, List.map_cons]
      by_cases h : x = c
      · subst h
        rw [if_pos ⟨by simp, by simp [List.isPrefixOf]⟩]
        simp only [List.length_singleton, Nat.sub_self, List.drop_zero]
        rw [ih t (by simpa using Nat.le_of_succ_le_succ hl)]
        simp
      · rw [if_neg (by rintro ⟨-, hp⟩; simp [List.isPrefixOf] at hp; exact h hp)]
        rw [ih t (by simpa using Nat.le_of_succ_le_succ hl)]
        have : (c == x) = false := by simpa [beq_iff_eq] using fun hc => h hc.symm
        simp [this]

theorem pyReplace_newline_all (s : String) :
    ((pyReplace s "\n" " ").data.all (fun c => c != '\n')) = true := by
  show ((String.mk (replaceAllAux ['\n'] [' '] s.data.length s.data)).data.all
    (fun c => c != '\n')) = true
  rw [replaceAllAux_single '\n' ' ' s.data.length s.data le_rfl]
  simp only [List.all_map, List.all_eq_true]
  intro c _
  by_cases h : c = '\n' <;> simp [h]

/-- C5.  For every synthesized query string, post-processing collapses
embedded newlines to spaces (the final result never contains a newline); a
query whose first keyword is UPDATE/INSERT/DELETE has a trailing LIMIT
clause removed, as on the claim's example; a query not starting with a
mutating keyword — in particular any SELECT statement — only gets stripped
and newline-collapsed, so its LIMIT clause is retained unchanged. -/
theorem validate_limit_stripping_and_newline_collapse :
    validate_and_fix_query "UPDATE t SET x=1 LIMIT 5" = "UPDATE t SET x=1" ∧
    validate_and_fix_query "SELECT name FROM t LIMIT 5" = "SELECT name FROM t LIMIT 5" ∧
    (∀ q : String, startsMut (pyStrip q) = false →
      validate_and_fix_query q = pyReplace (pyStrip q) "\n" " ") ∧
    (∀ q : String, ((validate_and_fix_query q).data.all (fun c => c != '\n')) = true) := by
  refine ⟨by rfl, by rfl, ?_, ?_⟩
  · intro q h
    simp only [validate_and_fix_query, h, Bool.false_eq_true, if_false]
  · intro q
    by_cases h : startsMut (pyStrip q) = true
    · simp only [validate_and_fix_query, h, if_true]
      exact pyReplace_newline_all _
    · simp only [validate_and_fix_query, h, Bool.false_eq_true, if_false]
      exact pyReplace_newline_all _

theorem validate_limit_stripping_and_newline_collapse_witness :
    startsMut (pyStrip "SELECT id FROM t\nLIMIT 3") = false ∧
    validate_and_fix_query "SELECT id FROM t\nLIMIT 3" =
      pyReplace (pyStrip "SELECT id FROM t\nLIMIT 3") "\n" " " :=
  ⟨by decide, validate_limit_stripping_and_newline_collapse.2.2.1 _ (by decide)⟩

/-- C7.  With a history whose most recent interaction is the question
`who is the top student` with result `[('alice', 95)]`, resolving the new
question `what is her email` substitutes the pronoun `her` with `alice`,
the string form of the first element of the first tuple of the parsed
result. -/
theorem resolve_pronoun_substitution_example :
    resolve_contextual_references
      { username := "u", max_history := 10
        conversation_history :=
          [{ timestamp := "t1", question := "who is the top student"
             query := "SELECT name FROM students ORDER BY marks DESC LIMIT 1"
             result := "[(\x27alice\x27, 95)]", answer := "the top student is alice" }]
        question_patterns := [], entity_memory := [] }
      "what is her email" = "what is alice email" := by rfl

/-- C10.  Pronoun substitution is literal substring replacement of the
lower-case pronoun text: every occurrence of its character sequence is
replaced, including inside longer words (`her` inside `where` makes
`where is her book` resolve to `walicee is alice book`), while occurrences
whose letters differ in case (`Her`) are left unchanged even though pronoun
detection lower-cases the question. -/
theorem resolve_replaces_literal_substrings :
    resolve_contextual_references
      { username := "u", max_history := 10
        conversation_history :=
          [{ timestamp := "t1", question := "who is the top student"
             query := "q1", result := "[(\x27alice\x27, 95)]", answer := "a1" }]
        question_patterns := [], entity_memory := [] }
      "where is her book" = "walicee is alice book" ∧
    resolve_contextual_references
      { username := "u", max_history := 10
        conversation_history :=
          [{ timestamp := "t1", question := "who is the top student"
             query := "q1", result := "[(\x27alice\x27, 95)]", answer := "a1" }]
        question_patterns := [], entity_memory := [] }
      "Her email please" = "Her email please" := ⟨by rfl, by rfl⟩

theorem takeWhile_append_stop (p : Nat → Bool) (l r : List Nat) (a : Nat)
    (hl : ∀ x ∈ l, p x = true) (ha : p a = false) :
    (l ++ a :: r).takeWhile p = l ∧ (l ++ a :: r).dropWhile p = a :: r := by
  induction l with
  | nil => simp [List.takeWhile_cons, List.dropWhile_cons, ha]
  | cons x xs ih =>
    have hx : p x = true := hl x (by simp)
    have ih' := ih (fun y hy => hl y (by simp [hy]))
    simp [List.takeWhile_cons, List.dropWhile_cons, hx, ih'.1, ih'.2]

theorem decNat_encNat (n : Nat) (r : List Nat) : decNat (encNat n ++ r) = some (n, r) := by
  have hdig : ∀ x ∈ Nat.digits 10 n, (fun b => b != 255) x = true := by
    intro x hx
    have := Nat.digits_lt_base (by norm_num) hx
    simp only [bne_iff_ne, ne_eq]
    omega
  have h := takeWhile_append_stop (fun b => b != 255) (Nat.digits 10 n) r 255 hdig (by simp)
  have hsplit : encNat n ++ r = Nat.digits 10 n ++ 255 :: r := by
    simp [encNat]
  rw [decNat, hsplit, h.1, h.2, Nat.ofDigits_digits]

theorem decChars_encChars (cs : List Char) :
    ∀ r : List Nat,
      decChars cs.length ((cs.map (fun c => encNat c.toNat)).flatten ++ r) = some (cs, r) := by
  induction cs with
  | nil => intro r; simp [decChars]
  | cons c cs ih =>
    intro r
    have hsplit :
        ((List.map (fun c => encNat c.toNat) (c :: cs)).flatten ++ r) =
          encNat c.toNat ++ ((cs.map (fun c => encNat c.toNat)).flatten ++ r) := by
      simp [List.flatten]
    simp only [List.length_cons, decChars, hsplit, decNat_encNat, Option.bind_eq_bind,
      Option.some_bind, ih r, Char.ofNat_toNat]
    rfl

theorem decStr_encStr (s : String) (r : List Nat) : decStr (encStr s ++ r) = some (s, r) := by
  have hsplit :
      encStr s ++ r =
        encNat s.data.length ++ ((s.data.map (fun c => encNat c.toNat)).flatten ++ r) := by
    simp [encStr]
  simp only [decStr, hsplit, decNat_encNat, Option.bind_eq_bind, Option.some_bind,
    decChars_encChars s.data r]
  rfl

theorem decBool_encBool (b : Bool) (r : List Nat) : decBool (encBool b ++ r) = some (b, r) := by
  cases b <;> rfl

theorem deserialize_serialize (s : AgentState) (r : List Nat) :
    deserializeState (serializeState s ++ r) = some s := by
  simp only [serializeState, List.append_assoc, deserializeState, Option.bind_eq_bind,
    decStr_encStr, decBool_encBool, Option.some_bind]
  rfl

theorem encNat_mem_lt (n : Nat) : ∀ b ∈ encNat n, b < 256 := by
  intro b hb
  simp only [encNat, List.mem_append, List.mem_singleton] at hb
  rcases hb with h | h
  · have := Nat.digits_lt_base (by norm_num) h
    omega
  · omega

theorem encStr_mem_lt (s : String) : ∀ b ∈ encStr s, b < 256 := by
  intro b hb
  simp only [encStr, List.mem_append, List.mem_flatten, List.mem_map] at hb
  rcases hb with h | ⟨l, ⟨c, _, hc⟩, hbl⟩
  · exact encNat_mem_lt _ b h
  · exact encNat_mem_lt c.toNat b (hc ▸ hbl)

theorem serializeState_mem_lt (s : AgentState) : ∀ b ∈ serializeState s, b < 256 := by
  intro b hb
  simp only [serializeState, List.mem_append] at hb
  rcases hb with ((((((((((h | h) | h) | h) | h) | h) | h) | h) | h) | h) | h)
  all_goals first
    | exact encStr_mem_lt _ b h
    | (simp only [encBool, List.mem_singleton] at h
       subst h
       split <;> omega)

theorem hexVal_hexChar (d : Nat) (h : d < 16) : hexVal? (hexChar d) = some d := by
  interval_cases d <;> rfl

theorem hexPairs_roundtrip (bs : List Nat) (h : ∀ b ∈ bs, b < 256) :
    hexPairsToBytes ((bs.map (fun b => [hexChar (b / 16), hexChar (b % 16)])).flatten) =
      some bs := by
  induction bs with
  | nil => rfl
  | cons b bs ih =>
    have hb : b < 256 := h b (by simp)
    have hdiv : b / 16 < 16 := by omega
    have hmod : b % 16 < 16 := Nat.mod_lt _ (by norm_num)
    have ih' := ih (fun x hx => h x (by simp [hx]))
    have key : 16 * (b / 16) + b % 16 = b := Nat.div_add_mod b 16
    simp only [List.map_cons, List.flatten_cons, List.cons_append, List.append_eq,
      List.nil_append, hexPairsToBytes, hexVal_hexChar _ hdiv, hexVal_hexChar _ hmod,
      Option.bind_eq_bind, Option.some_bind, Option.pure_def, ih', key]

theorem hexToBytes_bytesToHex (bs : List Nat) (h : ∀ b ∈ bs, b < 256) :
    hexToBytes (bytesToHex bs) = some bs := by
  simpa [hexToBytes, bytesToHex] using hexPairs_roundtrip bs h

/-- C2.  Decoding the checkpoint token produced by encoding a paused workflow
state (serialize, hex-encode, then hex-decode, deserialize) recovers the
state exactly — in particular (covering every state reachable at
`AwaitingApproval`) the SQL query text and the resolved question are
preserved, so resumption behaves identically. -/
theorem checkpoint_roundtrip (s : AgentState) :
    decodeCheckpoint (encodeCheckpoint s) = some s ∧
    (decodeCheckpoint (encodeCheckpoint s)).map AgentState.query = some s.query ∧
    (decodeCheckpoint (encodeCheckpoint s)).map AgentState.resolved_question =
      some s.resolved_question := by
  have hmain : decodeCheckpoint (encodeCheckpoint s) = some s := by
    have hser : deserializeState (serializeState s) = some s := by
      have := deserialize_serialize s []
      simpa using this
    simp [decodeCheckpoint, encodeCheckpoint,
      hexToBytes_bytesToHex (serializeState s) (serializeState_mem_lt s), hser]
  exact ⟨hmain, by rw [hmain]; rfl, by rw [hmain]; rfl⟩

theorem rtake_length_le (l : List α) (n : Nat) : (l.rtake n).length ≤ n := by
  simp only [List.rtake, List.length_drop]
  omega

theorem rtake_of_length_le (l : List α) (n : Nat) (h : l.length ≤ n) : l.rtake n = l := by
  simp [List.rtake, Nat.sub_eq_zero_of_le h]

theorem rtake_rtake (l : List α) (m k : Nat) (h : k ≤ m) :
    (l.rtake m).rtake k = l.rtake k := by
  simp only [List.rtake, List.length_drop, List.drop_drop]
  congr 1
  omega

/-- Arguments of one `recordInteraction` call, including the two
`datetime.now()` readings taken during it. -/
structure RecArgs where
  question : String
  query : String
  result : String
  answer : String
  nowI : String
  nowE : String
deriving DecidableEq, Repr

/-- The `Interaction` that a `recordInteraction` call appends. -/
def toInteraction (a : RecArgs) : Interaction :=
  { timestamp := a.nowI, question := a.question, query := a.query
    result := a.result, answer := a.answer }

/-- Sequential application of `add_interaction` for a whole call sequence. -/
def recordAll (mem : Memory) : List RecArgs → Memory
  | [] => mem
  | a :: rest =>
    recordAll (add_interaction mem a.question a.query a.result a.answer a.nowI a.nowE) rest

theorem add_interaction_history_step (mem : Memory) (arr : List Interaction)
    (a : RecArgs) (hm : 0 < mem.max_history)
    (hh : mem.conversation_history = arr.rtake mem.max_history) :
    (add_interaction mem a.question a.query a.result a.answer a.nowI a.nowE).conversation_history
      = (arr ++ [toInteraction a]).rtake mem.max_history := by
  set m := mem.max_history with hmdef
  show (if m < (mem.conversation_history ++ [toInteraction a]).length then
      pyTailSlice (mem.conversation_history ++ [toInteraction a]) m
    else mem.conversation_history ++ [toInteraction a]) =
    (arr ++ [toInteraction a]).rtake m
  rw [hh]
  by_cases hlen : m < (arr.rtake m ++ [toInteraction a]).length
  · rw [if_pos hlen]
    have hlen' : (arr.rtake m).length = m := by
      have h1 := rtake_length_le arr m
      simp only [List.length_append, List.length_singleton] at hlen
      omega
    have hm1 : m - 1 + 1 = m := by omega
    rw [pyTailSlice, if_neg (by omega)]
    conv_lhs => rw [← hm1, List.rtake_concat_succ]
    conv_rhs => rw [← hm1, List.rtake_concat_succ]
    rw [hm1, rtake_rtake arr m (m - 1) (by omega)]
  · rw [if_neg hlen]
    simp only [List.length_append, List.length_singleton, not_lt] at hlen
    have hr : (arr.rtake m).length = arr.length - (arr.length - m) := by
      simp [List.rtake, List.length_drop]
    have harr : arr.length < m := by omega
    rw [rtake_of_length_le arr m (by omega),
      rtake_of_length_le (arr ++ [toInteraction a]) m (by simp; omega)]

theorem recordAll_history (args : List RecArgs) :
    ∀ (mem : Memory) (arr : List Interaction), 0 < mem.max_history →
      mem.conversation_history = arr.rtake mem.max_history →
      (recordAll mem args).conversation_history =
        (arr ++ args.map toInteraction).rtake mem.max_history ∧
      (recordAll mem args).max_history = mem.max_history := by
  induction args with
  | nil => intro mem arr hm hh; simpa [recordAll] using hh
  | cons a rest ih =>
    intro mem arr hm hh
    have hstep := add_interaction_history_step mem arr a hm hh
    have hmax :
        (add_interaction mem a.question a.query a.result a.answer a.nowI a.nowE).max_history
          = mem.max_history := rfl
    have := ih (add_interaction mem a.question a.query a.result a.answer a.nowI a.nowE)
      (arr ++ [toInteraction a]) (by rw [hmax]; exact hm) (by rw [hmax]; exact hstep)
    simpa [recordAll, List.append_assoc] using this

/-- C3.  Starting from a fresh memory record (default `max_history = 10`),
after any sequence of `recordInteraction` calls the conversation history is
exactly the most recent 10 recorded interactions in arrival order (FIFO
truncation, oldest evicted first), and in particular never exceeds 10
entries.  Quantifying over every call sequence covers the state after each
individual call. -/
theorem bounded_history_fifo (u : String) (args : List RecArgs) :
    (recordAll (emptyMemory u) args).conversation_history =
      (args.map toInteraction).rtake 10 ∧
    (recordAll (emptyMemory u) args).conversation_history.length ≤ 10 := by
  have h := (recordAll_history args (emptyMemory u) [] (by simp [emptyMemory])
    (by simp [emptyMemory])).1
  have h10 : (emptyMemory u).max_history = 10 := rfl
  rw [h10] at h
  simp only [List.nil_append] at h
  exact ⟨h, h ▸ rtake_length_le _ _⟩

theorem char_toNat_ofNat (n : Nat) (h : n < 55296) : (Char.ofNat n).toNat = n := by
  have hv : n.isValidChar := Or.inl h
  simp only [Char.ofNat, hv, dif_pos, Char.ofNatAux, Char.toNat]
  simp [UInt32.toNat, BitVec.toNat_ofNatLt]

theorem pyLowerChar_idem (c : Char) : pyLowerChar (pyLowerChar c) = pyLowerChar c := by
  by_cases h : 65 ≤ c.toNat ∧ c.toNat ≤ 90
  · have hval : (Char.ofNat (c.toNat + 32)).toNat = c.toNat + 32 :=
      char_toNat_ofNat _ (by omega)
    simp only [pyLowerChar, if_pos h, hval]
    rw [if_neg (by omega)]
  · simp only [pyLowerChar, if_neg h]

theorem pyLower_idem (s : String) : pyLower (pyLower s) = pyLower s := by
  show String.mk ((s.data.map pyLowerChar).map pyLowerChar) = String.mk (s.data.map pyLowerChar)
  rw [List.map_map]
  congr 1
  exact List.map_congr_left (fun c _ => pyLowerChar_idem c)

theorem entityUpsert_key_inv (P : String → Prop) (em : List (String × EntityInfo))
    (k : String) (v : EntityInfo) (hem : ∀ kv ∈ em, P kv.1) (hk : P k) :
    ∀ kv ∈ entityUpsert em k v, P kv.1 := by
  intro kv hkv
  unfold entityUpsert at hkv
  split at hkv
  · rcases List.mem_map.mp hkv with ⟨p, hp, hpe⟩
    by_cases hpk : p.1 == k
    · simp only [hpk, if_true] at hpe
      rw [← hpe]
      exact hk
    · simp only [hpk, Bool.false_eq_true, if_false] at hpe
      rw [← hpe]
      exact hem p hp
  · rcases List.mem_append.mp hkv with h | h
    · exact hem kv h
    · simp only [List.mem_singleton] at h
      rw [h]
      exact hk

theorem extract_entities_key_inv (em : List (String × EntityInfo))
    (question result answer nowE : String)
    (hem : ∀ kv ∈ em, pyLower kv.1 = kv.1) :
    ∀ kv ∈ extract_entities em question result answer nowE, pyLower kv.1 = kv.1 := by
  have hfold :
      ∀ (its : List PyItem) (em0 : List (String × EntityInfo)),
        (∀ kv ∈ em0, pyLower kv.1 = kv.1) →
        ∀ kv ∈ its.foldl (entityStep question result answer nowE) em0,
          pyLower kv.1 = kv.1 := by
    intro its
    induction its with
    | nil => intro em0 h0; simpa using h0
    | cons it rest ih =>
      intro em0 h0
      simp only [List.foldl_cons]
      apply ih
      match it with
      | .ptup (v :: vs) =>
        exact entityUpsert_key_inv (fun k => pyLower k = k) em0 _ _ h0 (pyLower_idem _)
      | .ptup [] => exact h0
      | .pscalar _ => exact h0
  unfold extract_entities
  split
  · split
    · split
      · exact hem
      · exact hfold _ _ hem
    · exact hem
  · exact hem

/-- One externally observable mutation of a user's memory record: a
`recordInteraction` or an explicit clear. -/
inductive MemOp where
  | record (a : RecArgs)
  | clear
deriving DecidableEq, Repr

/-- Apply one memory operation. -/
def applyMemOp (mem : Memory) : MemOp → Memory
  | .record a => add_interaction mem a.question a.query a.result a.answer a.nowI a.nowE
  | .clear => clear_memory mem

/-- Run a sequence of memory operations from a given record. -/
def runMemOps (mem : Memory) : List MemOp → Memory
  | [] => mem
  | op :: rest => runMemOps (applyMemOp mem op) rest

/-- C8 (amended).  For every reachable memory record — any sequence of
`recordInteraction` and clear operations from a fresh record — every key of
the entity index equals its own lower-casing.  (The non-emptiness half of the
claim fails: see the counterexample for a recorded result whose first tuple
component is the empty string.) -/
theorem entity_keys_lowercased (u : String) (ops : List MemOp) :
    ∀ kv ∈ (runMemOps (emptyMemory u) ops).entity_memory, pyLower kv.1 = kv.1 := by
  have main :
      ∀ (ops : List MemOp) (mem : Memory),
        (∀ kv ∈ mem.entity_memory, pyLower kv.1 = kv.1) →
        ∀ kv ∈ (runMemOps mem ops).entity_memory, pyLower kv.1 = kv.1 := by
    intro ops
    induction ops with
    | nil => intro mem h; simpa [runMemOps] using h
    | cons op rest ih =>
      intro mem h
      simp only [runMemOps]
      apply ih
      match op with
      | .record a => exact extract_entities_key_inv _ _ _ _ _ h
      | .clear => simp [applyMemOp, clear_memory]
  exact main ops (emptyMemory u) (by simp [emptyMemory])

theorem entity_keys_lowercased_witness :
    ("bob", ({ question := "who", full_result := "[(\x27Bob\x27, 1)]", answer := "bob"
               timestamp := "t2" } : EntityInfo))
        ∈ (runMemOps (emptyMemory "u")
            [.record { question := "who", query := "SELECT name FROM t"
                       result := "[(\x27Bob\x27, 1)]", answer := "bob"
                       nowI := "t1", nowE := "t2" }]).entity_memory ∧
    pyLower "bob" = "bob" := by
  constructor
  · decide
  · exact entity_keys_lowercased "u"
      [.record { question := "who", query := "SELECT name FROM t"
                 result := "[(\x27Bob\x27, 1)]", answer := "bob"
                 nowI := "t1", nowE := "t2" }]
      ("bob", { question := "who", full_result := "[(\x27Bob\x27, 1)]", answer := "bob"
                timestamp := "t2" })
      (by decide)

/-- C8 (counterexample to the claim as stated).  The entity index can hold an
empty key: recording a result whose first tuple component is the empty string
(`"[('', 1)]"`, as produced by a row whose first column is an empty string)
stores the entity key `""`, so entity keys are not never-empty. -/
theorem entity_key_empty_counterexample :
    ((runMemOps (emptyMemory "u")
        [.record { question := "q", query := "SELECT email FROM t"
                   result := "[(\x27\x27, 1)]", answer := "a"
                   nowI := "t1", nowE := "t2" }]).entity_memory.map Prod.fst) = [""] := by
  decide

theorem dedupByIdAux_subset :
    ∀ (l : List Interaction) (seen : List String) (i : Interaction),
      i ∈ dedupByIdAux l seen → i ∈ l := by
  intro l
  induction l with
  | nil => intro seen i h; simp [dedupByIdAux] at h
  | cons a t ih =>
    intro seen i h
    simp only [dedupByIdAux] at h
    split at h
    · exact List.mem_cons_of_mem a (ih _ i h)
    · rcases List.mem_cons.mp h with h | h
      · exact h ▸ List.mem_cons_self a t
      · exact List.mem_cons_of_mem a (ih _ i h)

theorem dedupByIdAux_mem :
    ∀ (l : List Interaction) (seen : List String) (i : Interaction),
      i ∈ l → interactionId i ∉ seen →
      (∀ j ∈ l, interactionId j = interactionId i → j = i) →
      i ∈ dedupByIdAux l seen := by
  intro l
  induction l with
  | nil => intro seen i h; simp at h
  | cons a t ih =>
    intro seen i hi hseen huniq
    simp only [dedupByIdAux]
    rcases List.mem_cons.mp hi with heq | hit
    · subst heq
      rw [if_neg hseen]
      exact List.mem_cons_self _ _
    · split
      · rename_i hin
        have hne : a ≠ i := by
          intro h
          exact hseen (h ▸ hin)
        exact ih seen i hit hseen (fun j hj => huniq j (List.mem_cons_of_mem a hj))
      · rename_i hnin
        by_cases hai : a = i
        · exact hai ▸ List.mem_cons_self _ _
        · have hne : interactionId i ≠ interactionId a := by
            intro h
            exact hai (huniq a (List.mem_cons_self a t) h.symm)
          apply List.mem_cons_of_mem
          apply ih _ i hit
          · intro hmem
            rcases List.mem_cons.mp hmem with h | h
            · exact hne h
            · exact hseen h
          · exact fun j hj => huniq j (List.mem_cons_of_mem a hj)

theorem relevantCandidates_subset_sources (mem : Memory) (q : String) :
    ∀ i ∈ relevantCandidates mem q,
      i ∈ mem.conversation_history.rtake 2 ∨
        (i ∈ mem.conversation_history ∧
          2 ≤ commonWordCount (pyLower q) (pyLower i.question)) := by
  intro i hi
  have h := dedupByIdAux_subset _ _ _ hi
  rcases List.mem_append.mp h with h | h
  · exact Or.inl h
  · rcases List.mem_filter.mp h with ⟨hmem, hp⟩
    exact Or.inr ⟨hmem, by simpa using of_decide_eq_true hp⟩

theorem relevantCandidates_mem_sources (mem : Memory) (q : String)
    (hnd : (mem.conversation_history.map interactionId).Nodup) :
    ∀ i, (i ∈ mem.conversation_history.rtake 2 ∨
        (i ∈ mem.conversation_history ∧
          2 ≤ commonWordCount (pyLower q) (pyLower i.question))) →
      i ∈ relevantCandidates mem q := by
  intro i hi
  have hhist : i ∈ mem.conversation_history := by
    rcases hi with h | h
    · exact List.drop_subset _ _ h
    · exact h.1
  have huniq : ∀ j ∈ mem.conversation_history.rtake 2 ++
      mem.conversation_history.filter
        (fun x => decide (2 ≤ commonWordCount (pyLower q) (pyLower x.question))),
      interactionId j = interactionId i → j = i := by
    intro j hj hid
    have hjh : j ∈ mem.conversation_history := by
      rcases List.mem_append.mp hj with h | h
      · exact List.drop_subset _ _ h
      · exact (List.mem_filter.mp h).1
    exact List.inj_on_of_nodup_map hnd hjh hhist hid
  apply dedupByIdAux_mem _ [] i _ (by simp) huniq
  rcases hi with h | h
  · exact List.mem_append.mpr (Or.inl h)
  · exact List.mem_append.mpr
      (Or.inr (List.mem_filter.mpr ⟨h.1, decide_eq_true (by simpa using h.2)⟩))

/-- C6 (amended).  The narrative's shown interactions are the last three of
the deduplicated candidate list (the last two interactions followed by every
interaction sharing at least two lower-cased words with the current
question), so: an empty history yields an empty narrative; at most three
interactions are formatted; every shown interaction is among the last two or
shares at least two words; and — provided interactions carry distinct
(question, timestamp) identities — whenever the candidate list has at most
three entries, both the last two interactions and every at-least-two-word
match are formatted.  The claim's unconditional `always includes the last 2`
fails when two or more earlier interactions match (see the counterexample). -/
theorem relevant_context_shown_characterization (mem : Memory) (q : String) :
    (mem.conversation_history = [] → get_relevant_context mem q = "") ∧
    (shownInteractions mem q).length ≤ 3 ∧
    (∀ i ∈ shownInteractions mem q,
      i ∈ mem.conversation_history.rtake 2 ∨
        (i ∈ mem.conversation_history ∧
          2 ≤ commonWordCount (pyLower q) (pyLower i.question))) ∧
    ((mem.conversation_history.map interactionId).Nodup →
      (relevantCandidates mem q).length ≤ 3 →
      ∀ i, (i ∈ mem.conversation_history.rtake 2 ∨
          (i ∈ mem.conversation_history ∧
            2 ≤ commonWordCount (pyLower q) (pyLower i.question))) →
        i ∈ shownInteractions mem q) := by
  have hshown3 : (shownInteractions mem q).length ≤ 3 := by
    show (pyTailSlice (relevantCandidates mem q) 3).length ≤ 3
    rw [pyTailSlice, if_neg (by norm_num)]
    exact rtake_length_le _ _
  refine ⟨?_, hshown3, ?_, ?_⟩
  · intro h
    simp [get_relevant_context, h]
  · intro i hi
    have hsub : i ∈ relevantCandidates mem q := by
      have : shownInteractions mem q = (relevantCandidates mem q).rtake 3 := by
        rw [shownInteractions, pyTailSlice, if_neg (by norm_num)]
      rw [this, List.rtake] at hi
      exact List.drop_subset _ _ hi
    exact relevantCandidates_subset_sources mem q i hsub
  · intro hnd hlen i hi
    have hall : shownInteractions mem q = relevantCandidates mem q := by
      rw [shownInteractions, pyTailSlice, if_neg (by norm_num)]
      exact rtake_of_length_le _ _ hlen
    rw [hall]
    exact relevantCandidates_mem_sources mem q hnd i hi

theorem relevant_context_shown_characterization_witness :
    ({ timestamp := "t3", question := "yyy", query := "q3", result := "r3", answer := "a3" }
        : Interaction) ∈
      shownInteractions
        { username := "u", max_history := 10
          conversation_history :=
            [{ timestamp := "t1", question := "alpha beta one", query := "q1"
               result := "r1", answer := "a1" },
             { timestamp := "t2", question := "zzz", query := "q2"
               result := "r2", answer := "a2" },
             { timestamp := "t3", question := "yyy", query := "q3"
               result := "r3", answer := "a3" }]
          question_patterns := [], entity_memory := [] }
        "alpha beta" :=
  (relevant_context_shown_characterization
      { username := "u", max_history := 10
        conversation_history :=
          [{ timestamp := "t1", question := "alpha beta one", query := "q1"
             result := "r1", answer := "a1" },
           { timestamp := "t2", question := "zzz", query := "q2"
             result := "r2", answer := "a2" },
           { timestamp := "t3", question := "yyy", query := "q3"
             result := "r3", answer := "a3" }]
        question_patterns := [], entity_memory := [] }
      "alpha beta").2.2.2 (by decide) (by decide)
    { timestamp := "t3", question := "yyy", query := "q3", result := "r3", answer := "a3" }
    (Or.inl (by decide))

set_option maxRecDepth 8192 in
/-- C6 (counterexample to the claim as stated).  With four interactions of
which the first two share two words with the current question, the
second-to-last interaction (question `zzz`) is pushed out of the
`unique_relevant[-3:]` window: its question text does not occur anywhere in
the narrative, so the narrative does not always include the last two
interactions. -/
theorem relevant_context_drops_recent_counterexample :
    ({ username := "u", max_history := 10
       conversation_history :=
         [{ timestamp := "t1", question := "alpha beta one", query := "q1"
            result := "r1", answer := "a1" },
          { timestamp := "t2", question := "alpha beta two", query := "q2"
            result := "r2", answer := "a2" },
          { timestamp := "t3", question := "zzz", query := "q3"
            result := "r3", answer := "a3" },
          { timestamp := "t4", question := "yyy", query := "q4"
            result := "r4", answer := "a4" }]
       question_patterns := [], entity_memory := [] } : Memory).conversation_history.rtake 2 =
      [{ timestamp := "t3", question := "zzz", query := "q3", result := "r3", answer := "a3" },
       { timestamp := "t4", question := "yyy", query := "q4", result := "r4", answer := "a4" }] ∧
    pyContains
      (get_relevant_context
        { username := "u", max_history := 10
          conversation_history :=
            [{ timestamp := "t1", question := "alpha beta one", query := "q1"
               result := "r1", answer := "a1" },
             { timestamp := "t2", question := "alpha beta two", query := "q2"
               result := "r2", answer := "a2" },
             { timestamp := "t3", question := "zzz", query := "q3"
               result := "r3", answer := "a3" },
             { timestamp := "t4", question := "yyy", query := "q4"
               result := "r4", answer := "a4" }]
          question_patterns := [], entity_memory := [] }
        "alpha beta") "zzz" = false := by
  constructor
  · decide
  · decide

/-- C4 (counterexample to the claim as stated).  The source strips
whitespace from the question and the feedback before concatenating
(`current_state['question'].strip()` / `feedback.strip()`), so for a
checkpoint question with trailing whitespace the regenerated question is not
literally `<question> (<feedback>)`. -/
theorem regenerate_strip_counterexample :
    (regenerate_query_with_feedback (fun _ => "SELECT 1") "sqlite" "info"
      { username := "u", question := "q ", query := "", error := "", success := true
        result := "", answer := "", context_from_memory := "ctx"
        resolved_question := "rq", feedback := "", intent := "sql" } "f").question =
      "q (f)" ∧
    ("q (f)" : String) ≠ "q " ++ " (" ++ "f" ++ ")" := by
  constructor
  · rfl
  · decide

/-- C4 (amended).  For every checkpoint state and non-empty feedback, the
regenerate operation produces a new pending state whose question is the
whitespace-stripped checkpoint question, a single space, and the
whitespace-stripped feedback in parentheses; only query synthesis is re-run —
the memory-context narrative is carried over unchanged and the resolver is
not re-run (the resolved question is reset to empty) — and the result is
again awaiting approval (success, with result and answer still empty).  The
operation takes no memory record and returns none, so no interaction is
appended. -/
theorem regenerate_appends_stripped_feedback (llm : LLMInput → String)
    (dialect table_info : String) (st : AgentState) (feedback : String)
    (hf : feedback ≠ "") :
    (regenerate_query_with_feedback llm dialect table_info st feedback).question =
      pyStrip st.question ++ " (" ++ pyStrip feedback ++ ")" ∧
    (regenerate_query_with_feedback llm dialect table_info st feedback).context_from_memory =
      st.context_from_memory ∧
    (regenerate_query_with_feedback llm dialect table_info st feedback).resolved_question
      = "" ∧
    (regenerate_query_with_feedback llm dialect table_info st feedback).feedback = feedback ∧
    (regenerate_query_with_feedback llm dialect table_info st feedback).result = "" ∧
    (regenerate_query_with_feedback llm dialect table_info st feedback).answer = "" ∧
    (regenerate_query_with_feedback llm dialect table_info st feedback).success = true := by
  simp only [regenerate_query_with_feedback, write_query, hf]
  simp [if_pos hf]

theorem regenerate_appends_stripped_feedback_witness :
    (regenerate_query_with_feedback (fun _ => "SELECT 1") "sqlite" "info"
      { username := "u", question := "q1", query := "", error := "", success := true
        result := "", answer := "", context_from_memory := "ctx"
        resolved_question := "rq", feedback := "", intent := "sql" } "use email").question =
      pyStrip "q1" ++ " (" ++ pyStrip "use email" ++ ")" :=
  (regenerate_appends_stripped_feedback (fun _ => "SELECT 1") "sqlite" "info"
    { username := "u", question := "q1", query := "", error := "", success := true
      result := "", answer := "", context_from_memory := "ctx"
      resolved_question := "rq", feedback := "", intent := "sql" } "use email"
    (by decide)).1

theorem add_interaction_getLast (mem : Memory) (q qr r a t1 t2 : String) :
    (add_interaction mem q qr r a t1 t2).conversation_history.getLast? =
      some { timestamp := t1, question := q, query := qr, result := r, answer := a } := by
  show (if mem.max_history <
      (mem.conversation_history ++
        [({ timestamp := t1, question := q, query := qr, result := r, answer := a }
          : Interaction)]).length then
      pyTailSlice (mem.conversation_history ++
        [{ timestamp := t1, question := q, query := qr, result := r, answer := a }])
        mem.max_history
    else mem.conversation_history ++
      [{ timestamp := t1, question := q, query := qr, result := r, answer := a }]).getLast?
    = some { timestamp := t1, question := q, query := qr, result := r, answer := a }
  split
  · rw [pyTailSlice]
    split
    · exact List.getLast?_concat _
    · rename_i hm
      have h1 : mem.max_history - 1 + 1 = mem.max_history := by omega
      rw [← h1, List.rtake_concat_succ, List.getLast?_concat]
  · exact List.getLast?_concat _

/-- C9.  When executing the approved SQL fails, the executor does not raise
and the workflow is not aborted: the failure is captured as the state's
result text prefixed with the error marker carrying the underlying message,
the success and error fields are untouched, answer synthesis still runs on
the error-carrying state (producing the natural-language answer from the LLM
capability), and the completed interaction — error marker as its result — is
still recorded in memory. -/
theorem execution_failure_captured (llm : LLMInput → String)
    (dbRun : String → Except String String) (mem : Memory) (qs : AgentState)
    (t1 t2 t3 t4 msg : String) (h : dbRun qs.query = .error msg) :
    (finalize_after_approval llm dbRun mem qs t1 t2 t3 t4).1.result =
      "Error executing query: " ++ msg ∧
    (finalize_after_approval llm dbRun mem qs t1 t2 t3 t4).1.success = qs.success ∧
    (finalize_after_approval llm dbRun mem qs t1 t2 t3 t4).1.error = qs.error ∧
    (finalize_after_approval llm dbRun mem qs t1 t2 t3 t4).1.answer =
      pyStrip (llm (.text (answerPrompt qs.question qs.resolved_question qs.query
        ("Error executing query: " ++ msg) qs.feedback qs.context_from_memory))) ∧
    (finalize_after_approval llm dbRun mem qs t1 t2 t3 t4).2.conversation_history.getLast?
      = some { timestamp := t3, question := qs.question, query := qs.query
               result := "Error executing query: " ++ msg
               answer := pyStrip (llm (.text (answerPrompt qs.question qs.resolved_question
                 qs.query ("Error executing query: " ++ msg) qs.feedback
                 qs.context_from_memory))) } := by
  have hexec : execute_query dbRun qs = { qs with result := "Error executing query: " ++ msg } := by
    simp [execute_query, h]
  simp only [finalize_after_approval, hexec, generate_answer]
  refine ⟨trivial, trivial, trivial, trivial, ?_⟩
  exact add_interaction_getLast _ _ _ _ _ _ _

theorem execution_failure_captured_witness :
    (finalize_after_approval (fun _ => "the query failed")
      (fun _ => .error "no such table: t") (emptyMemory "u")
      { username := "u", question := "count rows", query := "SELECT x FROM t"
        error := "", success := true, result := "", answer := ""
        context_from_memory := "", resolved_question := "count rows"
        feedback := "", intent := "sql" } "t1" "t2" "t3" "t4").1.result =
      "Error executing query: " ++ "no such table: t" :=
  (execution_failure_captured (fun _ => "the query failed")
    (fun _ => .error "no such table: t") (emptyMemory "u")
    { username := "u", question := "count rows", query := "SELECT x FROM t"
      error := "", success := true, result := "", answer := ""
      context_from_memory := "", resolved_question := "count rows"
      feedback := "", intent := "sql" } "t1" "t2" "t3" "t4" "no such table: t" rfl).1

/-- C1.  Evaluation of the model at the claim's failing input: one completing
start call classified `chat` (empty starting memory, classifier replying
`chat`) appends the interaction twice — once inside the `basic_chat` node and
once more in `run_until_human_review` — leaving two identical entries (both
with question `hi`), and one approve call appends the interaction twice —
once inside `generate_answer` and once more in `finalize_after_approval` —
so the log grows by two entries per completing call, not one. -/
theorem completed_call_double_records :
    ((run_until_human_review (fun _ => "chat") "sqlite" "info" (emptyMemory "u") "u" "hi"
        "t1" "t2" "t3" "t4").2.conversation_history.map Interaction.question = ["hi", "hi"]) ∧
    ((run_until_human_review (fun _ => "chat") "sqlite" "info" (emptyMemory "u") "u" "hi"
        "t1" "t2" "t3" "t4").2.conversation_history.length = 2) ∧
    ((finalize_after_approval (fun _ => "an answer") (fun _ => .ok "ok") (emptyMemory "u")
        { username := "u", question := "q", query := "SELECT 1", error := ""
          success := true, result := "", answer := "", context_from_memory := ""
          resolved_question := "q", feedback := "", intent := "sql" }
        "t1" "t2" "t3" "t4").2.conversation_history.length = 2) := by
  refine ⟨?_, ?_, ?_⟩
  · rfl
  · rfl
  · rfl
